import Mathlib

/-!
# IncludeKit Universal Format: a verification development

This file gives a shallow embedding, in Lean 4, of the IncludeKit spec
repository's runtime components: the JSON canonicalizer (JCS-style key
sorting), the SHA-256 based shape-id (fingerprint) function, the
Statement/Mutation data model with its validators, and the mock
invalidation engine, together with theorems about them.

Numbers in embedded JSON values are modelled as integers; the source's
values exercised by the data model here (limits, offsets, ids) are
integers, booleans, strings and nulls.
-/

set_option maxHeartbeats 1000000

namespace IncludeKit

/-! ## JSON value model

`Json` mirrors the `interface\x7b\x7d` / `map[string]interface\x7b\x7d`
values that `encoding/json` produces when unmarshalling; objects are
association lists of fields in emission order. -/

inductive Json where
  | null : Json
  | bool (b : Bool) : Json
  | num (n : Int) : Json
  | str (s : String) : Json
  | arr (items : List Json) : Json
  | obj (fields : List (String × Json)) : Json

/-- Escape one character the way `encoding/json` does for string values
(quotes, backslash, control characters, and HTML-sensitive characters). -/
def escapeChar (c : Char) : String :=
  if c = '"' then "\\\""
  else if c = '\\' then "\\\\"
  else if c = '\n' then "\\n"
  else if c = '\r' then "\\r"
  else if c = '\t' then "\\t"
  else if c = '<' then "\\u003c"
  else if c = '>' then "\\u003e"
  else if c = '&' then "\\u0026"
  else if c.toNat < 32 then
    "\\u00" ++ String.mk [if c.toNat / 16 < 10 then Char.ofNat (48 + c.toNat / 16) else Char.ofNat (87 + c.toNat / 16),
                          if c.toNat % 16 < 10 then Char.ofNat (48 + c.toNat % 16) else Char.ofNat (87 + c.toNat % 16)]
  else String.mk [c]

/-- Render a string as a minimal valid JSON string literal. -/
def renderString (s : String) : String :=
  "\"" ++ String.join (s.toList.map escapeChar) ++ "\""

mutual

/-- Serialize a `Json` value with no insignificant whitespace, mirroring
`json.Marshal` on the normalized value. -/
def renderJson : Json → String
  | .null => "null"
  | .bool b => if b then "true" else "false"
  | .num n => toString n
  | .str s => renderString s
  | .arr items => "[" ++ renderArr items ++ "]"
  | .obj fields => "\x7b" ++ renderObj fields ++ "\x7d"

/-- Render array elements, comma separated. -/
def renderArr : List Json → String
  | [] => ""
  | [x] => renderJson x
  | x :: y :: rest => renderJson x ++ "," ++ renderArr (y :: rest)

/-- Render object fields, comma separated, in stored order. -/
def renderObj : List (String × Json) → String
  | [] => ""
  | [(k, v)] => renderString k ++ ":" ++ renderJson v
  | (k, v) :: q :: rest => renderString k ++ ":" ++ renderJson v ++ "," ++ renderObj (q :: rest)

end

/-- Insert a field into a key-sorted field list (byte-wise / code-point
lexicographic key order, as `sort.Strings` produces for these keys). -/
def insertField (p : String × Json) : List (String × Json) → List (String × Json)
  | [] => [p]
  | q :: qs => if p.1 ≤ q.1 then p :: q :: qs else q :: insertField p qs

/-- Sort object fields by key, ascending. -/
def sortFields : List (String × Json) → List (String × Json)
  | [] => []
  | p :: ps => insertField p (sortFields ps)

mutual

/-- `canonicalizeValue` from `canonicalize.go`: recursively sort all object
keys lexicographically; arrays keep their element order. -/
def canonicalizeValue : Json → Json
  | .obj fields => .obj (sortFields (canonicalizeFields fields))
  | .arr items => .arr (canonicalizeItems items)
  | v => v

def canonicalizeItems : List Json → List Json
  | [] => []
  | x :: xs => canonicalizeValue x :: canonicalizeItems xs

def canonicalizeFields : List (String × Json) → List (String × Json)
  | [] => []
  | (k, v) :: rest => (k, canonicalizeValue v) :: canonicalizeFields rest

end

/-- `Canonicalize` from `canonicalize.go`: JCS-style canonical JSON string
of a value (sorted object keys at every level, fixed scalar encoding, no
whitespace). -/
def Canonicalize (v : Json) : String :=
  renderJson (canonicalizeValue v)

/-- Delete a key from an unmarshalled object's field list (Go `delete`). -/
def removeKey (k : String) (fields : List (String × Json)) : List (String × Json) :=
  fields.filter (fun p => p.1 ≠ k)

/-! ## SHA-256 (`crypto/sha256`) over byte lists

Bytes and 32-bit words are `Nat` with explicit reduction modulo `2^32`;
this mirrors `sha256.Sum256` as used by `ComputeShapeID`. -/

def mask32 : Nat := 4294967295

def add32 (a b : Nat) : Nat := (a + b) % 4294967296

def rotr32 (x n : Nat) : Nat := ((x >>> n) ||| (x <<< (32 - n))) &&& mask32

def not32 (x : Nat) : Nat := x ^^^ mask32

def bigSigma0 (x : Nat) : Nat := rotr32 x 2 ^^^ rotr32 x 13 ^^^ rotr32 x 22

def bigSigma1 (x : Nat) : Nat := rotr32 x 6 ^^^ rotr32 x 11 ^^^ rotr32 x 25

def smallSigma0 (x : Nat) : Nat := rotr32 x 7 ^^^ rotr32 x 18 ^^^ (x >>> 3)

def smallSigma1 (x : Nat) : Nat := rotr32 x 17 ^^^ rotr32 x 19 ^^^ (x >>> 10)

def chFn (e f g : Nat) : Nat := (e &&& f) ^^^ (not32 e &&& g)

def majFn (a b c : Nat) : Nat := (a &&& b) ^^^ (a &&& c) ^^^ (b &&& c)

/-- The 64 SHA-256 round constants (decimal). -/
def sha256K : List Nat :=
  [1116352408, 1899447441, 3049323471, 3921009573, 961987163,
   1508970993, 2453635748, 2870763221, 3624381080, 310598401,
   607225278, 1426881987, 1925078388, 2162078206, 2614888103,
   3248222580, 3835390401, 4022224774, 264347078, 604807628,
   770255983, 1249150122, 1555081692, 1996064986, 2554220882,
   2821834349, 2952996808, 3210313671, 3336571891, 3584528711,
   113926993, 338241895, 666307205, 773529912, 1294757372,
   1396182291, 1695183700, 1986661051, 2177026350, 2456956037,
   2730485921, 2820302411, 3259730800, 3345764771, 3516065817,
   3600352804, 4094571909, 275423344, 430227734, 506948616,
   659060556, 883997877, 958139571, 1322822218, 1537002063,
   1747873779, 1955562222, 2024104815, 2227730452, 2361852424,
   2428436474, 2756734187, 3204031479, 3329325298]

/-- SHA-256 hash state: eight 32-bit words. -/
structure Hash8 where
  h0 : Nat
  h1 : Nat
  h2 : Nat
  h3 : Nat
  h4 : Nat
  h5 : Nat
  h6 : Nat
  h7 : Nat

/-- SHA-256 initial hash value. -/
def sha256Init : Hash8 :=
  ⟨1779033703, 3144134277, 1013904242, 2773480762,
   1359893119, 2600822924, 528734635, 1541459225⟩

/-- Big-endian packing of bytes into 32-bit words. -/
def bytesToWords : List Nat → List Nat
  | b0 :: b1 :: b2 :: b3 :: rest =>
      (b0 <<< 24 ||| b1 <<< 16 ||| b2 <<< 8 ||| b3) :: bytesToWords rest
  | _ => []

/-- The next word of the SHA-256 message schedule, from the last 16 words. -/
def nextScheduleWord (w : List Nat) : Nat :=
  add32 (add32 (smallSigma1 (w.getD (w.length - 2) 0)) (w.getD (w.length - 7) 0))
        (add32 (smallSigma0 (w.getD (w.length - 15) 0)) (w.getD (w.length - 16) 0))

/-- Extend the 16-word schedule by `n` further words. -/
def extendSchedule : List Nat → Nat → List Nat
  | w, 0 => w
  | w, n + 1 => extendSchedule (w ++ [nextScheduleWord w]) n

/-- One SHA-256 compression round, acting on the working variables. -/
def compressRound (st : Nat × Nat × Nat × Nat × Nat × Nat × Nat × Nat) (kw : Nat × Nat) :
    Nat × Nat × Nat × Nat × Nat × Nat × Nat × Nat :=
  match st, kw with
  | (a, b, c, d, e, f, g, h), (k, w) =>
    let t1 := add32 (add32 (add32 h (bigSigma1 e)) (add32 (chFn e f g) k)) w
    let t2 := add32 (bigSigma0 a) (majFn a b c)
    (add32 t1 t2, a, b, c, add32 d t1, e, f, g)

/-- Compress one 64-byte block into the hash state. -/
def compressBlock (h : Hash8) (block : List Nat) : Hash8 :=
  let w := extendSchedule (bytesToWords block) 48
  let fin := (sha256K.zip w).foldl compressRound (h.h0, h.h1, h.h2, h.h3, h.h4, h.h5, h.h6, h.h7)
  match fin with
  | (a, b, c, d, e, f, g, hh) =>
    ⟨add32 h.h0 a, add32 h.h1 b, add32 h.h2 c, add32 h.h3 d,
     add32 h.h4 e, add32 h.h5 f, add32 h.h6 g, add32 h.h7 hh⟩

/-- The 8-byte big-endian encoding of the message bit length. -/
def lengthBytes (n : Nat) : List Nat :=
  [(n >>> 56) &&& 255, (n >>> 48) &&& 255, (n >>> 40) &&& 255, (n >>> 32) &&& 255,
   (n >>> 24) &&& 255, (n >>> 16) &&& 255, (n >>> 8) &&& 255, n &&& 255]

/-- SHA-256 padding: a 0x80 byte, zeros to 56 mod 64, then the bit length. -/
def padMessage (msg : List Nat) : List Nat :=
  let zeros := (64 + 56 - ((msg.length + 1) % 64)) % 64
  msg ++ [128] ++ List.replicate zeros 0 ++ lengthBytes (msg.length * 8)

/-- Split a byte list into 64-byte blocks. -/
def chunks64 : List Nat → List (List Nat)
  | [] => []
  | b :: rest => ((b :: rest).take 64) :: chunks64 ((b :: rest).drop 64)
termination_by l => l.length
decreasing_by simp [List.length_drop]; omega

/-- Unpack 32-bit words into big-endian bytes. -/
def wordsToBytes (ws : List Nat) : List Nat :=
  ws.flatMap (fun w => [(w >>> 24) &&& 255, (w >>> 16) &&& 255, (w >>> 8) &&& 255, w &&& 255])

/-- SHA-256 of a byte list, as the 32-byte digest. -/
def sha256Bytes (msg : List Nat) : List Nat :=
  let fin := (chunks64 (padMessage msg)).foldl compressBlock sha256Init
  wordsToBytes [fin.h0, fin.h1, fin.h2, fin.h3, fin.h4, fin.h5, fin.h6, fin.h7]

/-! ## Shape id (`shapeid.go`) -/

/-- A lowercase hexadecimal digit character for a value below 16. -/
def hexDigit (n : Nat) : Char :=
  if n < 10 then Char.ofNat (48 + n) else Char.ofNat (87 + n)

/-- The two lowercase hex digits of one byte (`%x` pads each byte to two). -/
def byteHex (b : Nat) : List Char :=
  [hexDigit (b / 16), hexDigit (b % 16)]

/-- Lowercase hexadecimal rendering of a byte list, as `fmt.Sprintf "%x"`. -/
def bytesToHex (bs : List Nat) : String :=
  ⟨bs.flatMap byteHex⟩

/-- The UTF-8 bytes of a string. -/
def stringUtf8 (s : String) : List Nat :=
  s.toUTF8.toList.map (fun b => b.toNat)

/-- `ComputeShapeID` from `shapeid.go`: `fmt.Sprintf("s_%x", sha256.Sum256(canonicalJSON))`. -/
def ComputeShapeID (canonicalJSON : String) : String :=
  "s_" ++ bytesToHex (sha256Bytes (stringUtf8 canonicalJSON))

/-! ## Universal Format v0.1 data model (Go `types` package, hand-written types)

Optional (`*T`, `omitempty`) fields are `Option`; pointer-to-slice fields are
`Option (List _)`; `interface\x7b\x7d` values are `Json`. The Go field
`Where` is rendered `whereF` because `where` is reserved in Lean. -/

/-- `Condition` — a leaf-level predicate. -/
structure Condition where
  field : String
  fieldPath : List String
  op : String
  value : Option Json

/-- `Filter` — composes predicates with boolean logic; recursive, so an
inductive with one constructor. -/
inductive Filter where
  | mk (and : Option (List Filter)) (or : Option (List Filter))
       (not : Option Filter) (conditions : Option (List Condition))

def Filter.andF : Filter → Option (List Filter)
  | .mk a _ _ _ => a

def Filter.orF : Filter → Option (List Filter)
  | .mk _ o _ _ => o

def Filter.notF : Filter → Option Filter
  | .mk _ _ n _ => n

def Filter.conditions : Filter → Option (List Condition)
  | .mk _ _ _ c => c

/-- `OrderBy` — field ordering. -/
structure OrderBy where
  field : String
  descending : Option Bool
  nullsFirst : Option Bool
  caseSensitive : Option Bool

/-- `Query` — the core read parameters. -/
structure Query where
  model : String
  fields : Option (List String)
  whereF : Option Filter
  orderBy : Option (List OrderBy)
  limit : Option Int
  offset : Option Int
  distinct : Option (List String)

/-- `Include` — nested relation loading / relation-based filtering. -/
inductive Include where
  | mk (query : Option Query) (kind : Option String) (includes : List Include)

def Include.query : Include → Option Query
  | .mk q _ _ => q

def Include.kind : Include → Option String
  | .mk _ k _ => k

def Include.includes : Include → List Include
  | .mk _ _ i => i

/-- `Pagination` — cursor-based pagination parameters. -/
structure Pagination where
  first : Option Int
  last : Option Int
  after : Option String
  before : Option String

/-- `Statement` — the normalized description of a read. -/
structure Statement where
  query : Option Query
  pagination : Option Pagination
  groupBy : Option (List String)
  having : Option Filter
  includes : List Include
  ormVersion : Option String
  sdkVersion : Option String

/-- `KV` — a field/value pair. -/
structure KV where
  field : String
  value : Json

/-- `Change` — a single insert/update/delete operation. -/
structure Change where
  model : String
  action : String
  sets : List KV
  whereF : Option Filter

/-- `Mutation` — the ordered list of changes of a write transaction. -/
structure Mutation where
  txId : Option String
  changes : List Change

/-- `PaginationBoundary` — the last included row of a paginated query. -/
structure PaginationBoundary where
  orderBy : List OrderBy
  row : List (String × Json)
  cursor : Option KV

/-- `GroupByKV` — group-by dimensions and observed key tuples. -/
structure GroupByKV where
  keys : List String
  values : List (List (String × Json))

/-- `Dependencies` — what a read depends on (engine output). -/
structure Dependencies where
  shapeID : String
  records : List (String × List String)
  filters : List Filter
  includes : List Include
  lastRow : Option PaginationBoundary
  groupBy : Option GroupByKV

/-! ## JSON encoding of the data model

These mirror `encoding/json` marshalling with the struct tags of the types
package: an `omitempty` optional that is absent emits no field. -/

/-- Emit one optional object field (`omitempty`). -/
def optField (k : String) : Option Json → List (String × Json)
  | none => []
  | some j => [(k, j)]

def conditionToJson (c : Condition) : Json :=
  Json.obj (
    [("field", Json.str c.field)] ++
    (match c.fieldPath with
     | [] => []
     | l => [("field_path", Json.arr (l.map Json.str))]) ++
    [("op", Json.str c.op)] ++
    optField "value" c.value)

mutual

def filterToJson : Filter → Json
  | .mk a o n c =>
    Json.obj (
      (match a with | none => [] | some l => [("and", Json.arr (filterListToJson l))]) ++
      (match o with | none => [] | some l => [("or", Json.arr (filterListToJson l))]) ++
      (match n with | none => [] | some f => [("not", filterToJson f)]) ++
      (match c with | none => [] | some l => [("conditions", Json.arr (l.map conditionToJson))]))

def filterListToJson : List Filter → List Json
  | [] => []
  | f :: fs => filterToJson f :: filterListToJson fs

end

def orderByToJson (ob : OrderBy) : Json :=
  Json.obj (
    [("field", Json.str ob.field)] ++
    optField "descending" (ob.descending.map Json.bool) ++
    optField "nulls_first" (ob.nullsFirst.map Json.bool) ++
    optField "case_sensitive" (ob.caseSensitive.map Json.bool))

def queryToJson (q : Query) : Json :=
  Json.obj (
    [("model", Json.str q.model)] ++
    optField "fields" (q.fields.map (fun l => Json.arr (l.map Json.str))) ++
    optField "where" (q.whereF.map filterToJson) ++
    optField "order_by" (q.orderBy.map (fun l => Json.arr (l.map orderByToJson))) ++
    optField "limit" (q.limit.map Json.num) ++
    optField "offset" (q.offset.map Json.num) ++
    optField "distinct" (q.distinct.map (fun l => Json.arr (l.map Json.str))))

mutual

def includeToJson : Include → Json
  | .mk q k inc =>
    Json.obj (
      (match q with | none => [] | some qq => [("query", queryToJson qq)]) ++
      (match k with | none => [] | some s => [("kind", Json.str s)]) ++
      (match inc with
       | [] => []
       | l => [("includes", Json.arr (includeListToJson l))]))

def includeListToJson : List Include → List Json
  | [] => []
  | i :: is => includeToJson i :: includeListToJson is

end

def paginationToJson (p : Pagination) : Json :=
  Json.obj (
    optField "first" (p.first.map Json.num) ++
    optField "last" (p.last.map Json.num) ++
    optField "after" (p.after.map Json.str) ++
    optField "before" (p.before.map Json.str))

def statementFields (s : Statement) : List (String × Json) :=
  optField "query" (s.query.map queryToJson) ++
  optField "pagination" (s.pagination.map paginationToJson) ++
  optField "group_by" (s.groupBy.map (fun l => Json.arr (l.map Json.str))) ++
  optField "having" (s.having.map filterToJson) ++
  (match s.includes with
   | [] => []
   | l => [("includes", Json.arr (l.map includeToJson))]) ++
  optField "orm_version" (s.ormVersion.map Json.str) ++
  optField "sdk_version" (s.sdkVersion.map Json.str)

def statementToJson (s : Statement) : Json :=
  Json.obj (statementFields s)

/-- The testkit canonicalizer for a Statement (`canonicalize.ts`,
`canonicalizeQueryShape`): remove the diagnostic fields `orm_version` and
`sdk_version`, then canonicalize with sorted keys. -/
def canonicalizeStatement (s : Statement) : String :=
  Canonicalize (Json.obj (removeKey "sdk_version" (removeKey "orm_version" (statementFields s))))

/-- The testkit shape id for a Statement (`shapeId.ts`,
`computeQueryShapeId`): the fingerprint of the canonical string. -/
def computeStatementShapeID (s : Statement) : String :=
  ComputeShapeID (canonicalizeStatement s)

/-! ## Runtime validators (Go testkit)

Each validator returns the first violation found, as the source's early
returns do; `none` means the input passed. -/

/-- `ValidationError` — a validation failure with a field path. -/
structure ValidationError where
  message : String
  path : String
deriving DecidableEq

/-- Sequence two checks: the first error wins (models Go's early return). -/
def seqE : Option ValidationError → Option ValidationError → Option ValidationError
  | some e, _ => some e
  | none, r => r

/-- The fixed operator set of `validateFilterAtom`. -/
def validOps : List String :=
  ["eq", "ne", "in", "notIn", "isNull",
   "gt", "gte", "lt", "lte", "between",
   "contains", "startsWith", "endsWith",
   "like", "ilike", "regex",
   "has", "hasSome", "hasEvery", "jsonContains",
   "lenEq", "lenGt", "lenLt", "exists"]

/-- Does the operator match the `custom:*` escape pattern
(`len(op) >= 7 && op[:7] == "custom:"`)? -/
def isCustomOp (op : String) : Bool :=
  7 ≤ op.length && op.take 7 == "custom:"

/-- `validateFilterAtom` — field and op non-empty, op in the fixed set or
`custom:*`. -/
def validateFilterAtom (atom : Condition) (path : String) : Option ValidationError :=
  if atom.field = "" then
    some ⟨"field must be a non-empty string", path ++ ".field"⟩
  else if atom.op = "" then
    some ⟨"op must be a non-empty string", path ++ ".op"⟩
  else if ¬ validOps.contains atom.op ∧ ¬ isCustomOp atom.op then
    some ⟨"invalid operator: " ++ atom.op, path ++ ".op"⟩
  else
    none

/-- The indexed loop over a filter's conditions (`%s.atoms[%d]`). -/
def validateFilterAtomList (l : List Condition) (base : String) (i : Nat) : Option ValidationError :=
  match l with
  | [] => none
  | a :: rest =>
    seqE (validateFilterAtom a (base ++ "[" ++ toString i ++ "]"))
      (validateFilterAtomList rest base (i + 1))

mutual

/-- `validateFilterSpec` — recursively validate a boolean filter tree. -/
def validateFilterSpec (spec : Filter) (path : String) : Option ValidationError :=
  match spec with
  | .mk a o n c =>
    seqE (match a with
          | none => none
          | some l => validateFilterSpecList l (path ++ ".and") 0)
      (seqE (match o with
             | none => none
             | some l => validateFilterSpecList l (path ++ ".or") 0)
        (seqE (match n with
               | none => none
               | some f => validateFilterSpec f (path ++ ".not"))
          (match c with
           | none => none
           | some l => validateFilterAtomList l (path ++ ".atoms") 0)))

def validateFilterSpecList (l : List Filter) (base : String) (i : Nat) : Option ValidationError :=
  match l with
  | [] => none
  | f :: rest =>
    seqE (validateFilterSpec f (base ++ "[" ++ toString i ++ "]"))
      (validateFilterSpecList rest base (i + 1))

end

/-- `validateOrderBy` — the field must be non-empty. -/
def validateOrderBy (ob : OrderBy) (path : String) : Option ValidationError :=
  if ob.field = "" then
    some ⟨"field must be a non-empty string", path ++ ".field"⟩
  else
    none

def validateOrderByList (l : List OrderBy) (base : String) (i : Nat) : Option ValidationError :=
  match l with
  | [] => none
  | ob :: rest =>
    seqE (validateOrderBy ob (base ++ "[" ++ toString i ++ "]"))
      (validateOrderByList rest base (i + 1))

/-- The loop rejecting empty strings in `distinct` (and similar) lists. -/
def validateNonEmptyFields (msg : String) (l : List String) (base : String) (i : Nat) :
    Option ValidationError :=
  match l with
  | [] => none
  | f :: rest =>
    if f = "" then some ⟨msg, base ++ "[" ++ toString i ++ "]"⟩
    else validateNonEmptyFields msg rest base (i + 1)

/-- `validateQuery` — non-empty model; valid where, orderBy; non-negative
limit and offset; non-empty distinct fields. -/
def validateQuery (q : Query) (path : String) : Option ValidationError :=
  if q.model = "" then
    some ⟨"model must be a non-empty string", path ++ ".model"⟩
  else
    seqE (match q.whereF with
          | none => none
          | some f => validateFilterSpec f (path ++ ".where"))
      (seqE (match q.orderBy with
             | none => none
             | some l => validateOrderByList l (path ++ ".orderBy") 0)
        (seqE (match q.limit with
               | some n => if n < 0 then some ⟨"limit must be non-negative", path ++ ".limit"⟩ else none
               | none => none)
          (seqE (match q.offset with
                 | some n => if n < 0 then some ⟨"offset must be non-negative", path ++ ".offset"⟩ else none
                 | none => none)
            (match q.distinct with
             | none => none
             | some l => validateNonEmptyFields "distinct field must be non-empty" l (path ++ ".distinct") 0))))

/-- `validatePagination` — forward and backward parameters are exclusive,
`first`/`last` must be positive. -/
def validatePagination (p : Pagination) (path : String) : Option ValidationError :=
  let hasForward := p.first.isSome || p.after.isSome
  let hasBackward := p.last.isSome || p.before.isSome
  if hasForward && hasBackward then
    some ⟨"cannot mix forward pagination (first/after) with backward pagination (last/before)", path⟩
  else
    seqE (match p.first with
          | some n => if n ≤ 0 then some ⟨"first must be a positive integer", path ++ ".first"⟩ else none
          | none => none)
      (match p.last with
       | some n => if n ≤ 0 then some ⟨"last must be a positive integer", path ++ ".last"⟩ else none
       | none => none)

mutual

/-- `validateInclude` — validate the optional query, the optional kind, and
nested includes recursively. -/
def validateInclude (inc : Include) (path : String) : Option ValidationError :=
  match inc with
  | .mk q k is =>
    seqE (match q with
          | none => none
          | some qq => validateQuery qq (path ++ ".query"))
      (seqE (match k with
             | none => none
             | some kk =>
               if kk = "some" ∨ kk = "every" ∨ kk = "none" then none
               else some ⟨"kind must be 'some', 'every', or 'none'", path ++ ".kind"⟩)
        (validateIncludeList is (path ++ ".includes") 0))

def validateIncludeList (l : List Include) (base : String) (i : Nat) : Option ValidationError :=
  match l with
  | [] => none
  | inc :: rest =>
    seqE (validateInclude inc (base ++ "[" ++ toString i ++ "]"))
      (validateIncludeList rest base (i + 1))

end

/-- The query block of `ValidateQueryShape` (skipped when `query` is nil). -/
def statementQueryCheck (stmt : Statement) : Option ValidationError :=
  match stmt.query with
  | none => none
  | some q => validateQuery q "statement.query"

/-- The groupBy block of `ValidateQueryShape`. -/
def statementGroupByCheck (stmt : Statement) : Option ValidationError :=
  match stmt.groupBy with
  | none => none
  | some l => validateNonEmptyFields "groupBy field must be non-empty" l "statement.groupBy" 0

/-- The having block of `ValidateQueryShape`. -/
def statementHavingCheck (stmt : Statement) : Option ValidationError :=
  match stmt.having with
  | none => none
  | some f => validateFilterSpec f "statement.having"

/-- The pagination block of `ValidateQueryShape`. -/
def statementPaginationCheck (stmt : Statement) : Option ValidationError :=
  match stmt.pagination with
  | none => none
  | some p => validatePagination p "statement.pagination"

/-- The includes block of `ValidateQueryShape`. -/
def statementIncludesCheck (stmt : Statement) : Option ValidationError :=
  match stmt.includes with
  | [] => none
  | l => validateIncludeList l "statement.includes" 0

/-- `ValidateQueryShape` — validate a Statement: query (when present),
groupBy fields, having, pagination, and includes, in that order. -/
def ValidateQueryShape (stmt : Statement) : Option ValidationError :=
  seqE (statementQueryCheck stmt)
    (seqE (statementGroupByCheck stmt)
      (seqE (statementHavingCheck stmt)
        (seqE (statementPaginationCheck stmt)
          (statementIncludesCheck stmt))))

/-- The loop over set clauses: each field must be non-empty
(`%s.set[%d].field`). -/
def validateSetClauses (l : List KV) (path : String) (j : Nat) : Option ValidationError :=
  match l with
  | [] => none
  | kv :: rest =>
    if kv.field = "" then
      some ⟨"set clause field must be non-empty", path ++ ".set[" ++ toString j ++ "].field"⟩
    else validateSetClauses rest path (j + 1)

/-- `validateDataChange` — per-change validation: non-empty model, known
action, per-action invariants on sets/where, non-empty set fields, and a
valid where filter. -/
def validateDataChange (change : Change) (path : String) : Option ValidationError :=
  if change.model = "" then
    some ⟨"model must be non-empty", path ++ ".model"⟩
  else if ¬ (change.action = "insert" ∨ change.action = "update" ∨ change.action = "delete") then
    some ⟨"action must be 'insert', 'update', or 'delete', got: " ++ change.action, path ++ ".action"⟩
  else
    seqE
      (if change.action = "insert" then
         if change.sets.length = 0 then
           some ⟨"insert requires non-empty set", path ++ ".set"⟩
         else if change.whereF.isSome then
           some ⟨"insert cannot have where clause", path ++ ".where"⟩
         else none
       else if change.action = "update" then
         if change.sets.length = 0 then
           some ⟨"update requires non-empty set", path ++ ".set"⟩
         else if change.whereF.isNone then
           some ⟨"update requires where clause", path ++ ".where"⟩
         else none
       else
         if 0 < change.sets.length then
           some ⟨"delete cannot have set clause", path ++ ".set"⟩
         else if change.whereF.isNone then
           some ⟨"delete requires where clause", path ++ ".where"⟩
         else none)
      (seqE (validateSetClauses change.sets path 0)
        (match change.whereF with
         | none => none
         | some f => validateFilterSpec f (path ++ ".where")))

/-! ## Mock engine (`mock.go`)

The engine's mutable fields (`schema`, `shapes`) are a `MockState`; each
source method is a function from state (and config) to state and response.
The `calls` tracking slice (pure test instrumentation, read back only by
`GetCalls`) is not modelled; no other behavior depends on it.
The `shapes` map and the `records` map are association lists with unique
keys, with Go map indexing as `mapLookup` and assignment as `mapInsert`. -/

/-- Go map lookup `m[k]` on an association list. -/
def mapLookup (k : String) : List (String × A) → Option A
  | [] => none
  | (k', v) :: rest => if k' = k then some v else mapLookup k rest

/-- Go map assignment `m[k] = v` on an association list. -/
def mapInsert (k : String) (v : A) : List (String × A) → List (String × A)
  | [] => [(k, v)]
  | (k', v') :: rest => if k' = k then (k, v) :: rest else (k', v') :: mapInsert k v rest

/-- `IDConfig` — id field configuration. -/
structure IDConfig where
  kind : String

/-- `Relation` — a model relation. -/
structure Relation where
  name : String
  target : String
  kind : String

/-- `Model` — a model in the application schema. -/
structure Model where
  name : String
  id : IDConfig
  relations : List Relation

/-- `AppSchema` — the engine-specific application schema. -/
structure AppSchema where
  version : Int
  models : List Model

/-- `MockEngineConfig` — mock engine behavior configuration. -/
structure MockEngineConfig where
  shapeIDGenerator : Option (Statement → String)
  evictBehavior : String
  customEvictList : List String
  trackCalls : Bool

/-- The mutable state of a `MockEngine`. -/
structure MockState where
  schema : Option AppSchema
  shapes : List (String × Dependencies)

/-- `NewMockEngine` — fresh state: empty shape store, no schema. -/
def newMockState : MockState := ⟨none, []⟩

/-- `AddQueryRequest` — a shape plus an optional result hint. -/
structure AddQueryRequest where
  shape : Statement
  resultHint : Option (List (String × List Json))

/-- `AddQueryResponse`. -/
structure AddQueryResponse where
  shapeID : String
  dependencies : Dependencies

/-- `InvalidateResponse`. -/
structure InvalidateResponse where
  evict : List String

/-- `ExplainRequest`. -/
structure ExplainRequest where
  mutation : Mutation
  shapeID : String

/-- `ExplainResponse`. -/
structure ExplainResponse where
  invalidate : Bool
  reasons : List String

/-- `computeShapeIDInternal` — the configured generator, else the real
testkit shape-id computation for the Statement. -/
def computeShapeIDInternal (cfg : MockEngineConfig) (stmt : Statement) : String :=
  match cfg.shapeIDGenerator with
  | some g => g stmt
  | none => computeStatementShapeID stmt

mutual

/-- `fmt.Sprintf("%v", ...)` on an unmarshalled JSON value (used for row
ids in `extractRecords`; hinted ids are scalars, so the composite cases
only fix a rendering for ill-typed hints and map fields are shown in
stored rather than sorted order). -/
def goFormatV : Json → String
  | .null => "<nil>"
  | .bool b => if b then "true" else "false"
  | .num n => toString n
  | .str s => s
  | .arr items => "[" ++ goFormatList items ++ "]"
  | .obj fields => "map[" ++ goFormatFields fields ++ "]"

def goFormatList : List Json → String
  | [] => ""
  | [x] => goFormatV x
  | x :: y :: rest => goFormatV x ++ " " ++ goFormatList (y :: rest)

def goFormatFields : List (String × Json) → String
  | [] => ""
  | [(k, v)] => k ++ ":" ++ goFormatV v
  | (k, v) :: q :: rest => k ++ ":" ++ goFormatV v ++ " " ++ goFormatFields (q :: rest)

end

/-- `extractRecords` — collect the `id` of each hinted row of the queried
model; an empty id list is not stored. -/
def extractRecords (req : AddQueryRequest) : List (String × List String) :=
  match req.resultHint, req.shape.query with
  | none, _ => []
  | _, none => []
  | some hint, some q =>
    match mapLookup q.model hint with
    | none => []
    | some rows =>
      let ids := rows.flatMap (fun row =>
        match row with
        | Json.obj fields =>
          (match mapLookup "id" fields with
           | some idv => [goFormatV idv]
           | none => [])
        | _ => [])
      if ids = [] then [] else [(q.model, ids)]

/-- `extractFilters` — the top-level `where` and `having` filters. -/
def extractFilters (stmt : Statement) : List Filter :=
  (match stmt.query with
   | some q =>
     (match q.whereF with
      | some f => [f]
      | none => [])
   | none => []) ++
  (match stmt.having with
   | some f => [f]
   | none => [])

/-- `AddQuery` — compute the shape id, build the Dependencies record, and
store it under the shape id. -/
def addQueryStep (cfg : MockEngineConfig) (st : MockState) (req : AddQueryRequest) :
    MockState × AddQueryResponse :=
  let sid := computeShapeIDInternal cfg req.shape
  let deps : Dependencies :=
    ⟨sid, extractRecords req, extractFilters req.shape, req.shape.includes, none, none⟩
  (⟨st.schema, mapInsert sid deps st.shapes⟩, ⟨sid, deps⟩)

/-- `filterReferencesModel` — the mock's simplified notion of a filter
referencing a model: it ignores the model argument and just checks that
some condition exists. -/
def filterReferencesModel (filter : Filter) (_model : String) : Bool :=
  match filter.conditions with
  | some conds => decide (0 < conds.length)
  | none => false

/-- `shouldInvalidate` — batch-mode rule: under `conservative` behavior
(the default), evict iff the change's model is tracked in `records`. -/
def shouldInvalidate (cfg : MockEngineConfig) (change : Change) (deps : Dependencies) : Bool :=
  let behavior := if cfg.evictBehavior = "" then "conservative" else cfg.evictBehavior
  if behavior = "conservative" then
    (mapLookup change.model deps.records).isSome
  else
    false

/-- `Invalidate` — the custom evict list when configured, otherwise every
stored shape some change of the mutation should invalidate. The method
reads the store and does not modify it. -/
def invalidateStep (cfg : MockEngineConfig) (st : MockState) (mutation : Mutation) :
    MockState × InvalidateResponse :=
  if cfg.evictBehavior = "custom" ∧ cfg.customEvictList ≠ [] then
    (st, ⟨cfg.customEvictList⟩)
  else
    (st, ⟨(st.shapes.filter
            (fun p => mutation.changes.any (fun c => shouldInvalidate cfg c p.2))).map
            (fun p => p.1)⟩)

/-- `deduplicateStrings` with its `seen` set. -/
def dedupAux (seen : List String) : List String → List String
  | [] => []
  | x :: xs => if x ∈ seen then dedupAux seen xs else x :: dedupAux (x :: seen) xs

/-- `deduplicateStrings` — keep the first occurrence of each string. -/
def deduplicateStrings (input : List String) : List String :=
  dedupAux [] input

/-- Explain rule 1 (record membership): the change's model is tracked in
`records` with a non-empty id list. -/
def explainRule1 (deps : Dependencies) (change : Change) : List String :=
  match mapLookup change.model deps.records with
  | some ids => if 0 < ids.length then ["record_membership"] else []
  | none => []

/-- Explain rule 2 (filter dependency): some stored filter references the
changed model (per `filterReferencesModel`). -/
def explainRule2 (deps : Dependencies) (change : Change) : List String :=
  if 0 < deps.filters.length then
    (if deps.filters.any (fun f => filterReferencesModel f change.model) then
       ["filter_dependency"]
     else [])
  else []

/-- Whether an include's query targets the given model. -/
def includeTargets (m : String) (inc : Include) : Bool :=
  match inc.query with
  | some q => q.model = m
  | none => false

/-- Explain rule 3 (relation dependency): some stored include's query is on
the changed model. -/
def explainRule3 (deps : Dependencies) (change : Change) : List String :=
  if 0 < deps.includes.length then
    (if deps.includes.any (includeTargets change.model) then
       ["relation_dependency"]
     else [])
  else []

/-- The reasons one change contributes in `ExplainInvalidation`: record
membership, filter dependency, relation dependency, in source order. -/
def explainChangeReasons (deps : Dependencies) (change : Change) : List String :=
  explainRule1 deps change ++ explainRule2 deps change ++ explainRule3 deps change

/-- `ExplainInvalidation` — unknown shape ids explain to `false` with no
reasons; otherwise collect per-change reasons, deduplicate, and
invalidate iff any reason remains. -/
def explainStep (st : MockState) (req : ExplainRequest) : ExplainResponse :=
  match mapLookup req.shapeID st.shapes with
  | none => ⟨false, []⟩
  | some deps =>
    let u := deduplicateStrings (req.mutation.changes.flatMap (explainChangeReasons deps))
    ⟨decide (0 < u.length), u⟩

/-- `Reset` — clear all engine state. -/
def resetStep (_st : MockState) : MockState := ⟨none, []⟩

/-- `SetSchema` — store the application schema. -/
def setSchemaStep (st : MockState) (schema : AppSchema) : MockState :=
  ⟨some schema, st.shapes⟩


/-! ## QueryShape data model and canonicalizer (`pkgs/go/types/doc.go`,
`pkgs/go/tests/canonicalize.go`, `pkgs/go/tests/shapeid.go`)

The Go `CanonicalizeQueryShape` marshals the shape, unmarshals it into a
generic map, deletes the diagnostic keys `orm` and `adapterVersion`, and
canonicalizes. `map[string]IncludeSpec` is an association list of
`IncludeEntry`; `Scalar` values are `Json`. -/

/-- `OrderBySpec` — field ordering (ik-spec generation). -/
structure OrderBySpec where
  field : String
  direction : String
  nulls : Option String
  collation : Option String

/-- `CursorSpec` — cursor-based pagination (ik-spec generation). -/
structure CursorSpec where
  fields : List String
  values : List Json
  before : Option Bool

/-- `FilterAtom` — a leaf-level predicate (ik-spec generation). -/
structure FilterAtom where
  field : String
  op : String
  value : Option Json
  path : List String

/-- `FilterSpec` — boolean filter tree (ik-spec generation). -/
inductive FilterSpec where
  | mk (and : Option (List FilterSpec)) (or : Option (List FilterSpec))
       (not : Option FilterSpec) (atoms : Option (List FilterAtom))

/-- `RelationFilterBound` — a relational predicate (ik-spec generation). -/
structure RelationFilterBound where
  relation : String
  kind : String
  whereF : Option FilterSpec

mutual

/-- `IncludeSpec` — nested relation loading (ik-spec generation). -/
inductive IncludeSpec where
  | mk (select : Option (List String)) (whereF : Option FilterSpec)
       (orderBy : Option (List OrderBySpec)) (take : Option Int) (skip : Option Int)
       (distinct : Option (List String)) (includeF : List IncludeEntry)
       (relationFilter : Option (List RelationFilterBound)) (separateLoad : Option Bool)

/-- One entry of a `map[string]IncludeSpec`. -/
inductive IncludeEntry where
  | mk (name : String) (spec : IncludeSpec)

end

/-- `QueryShape` — the normalized description of a read (ik-spec
generation); `ORM` and `AdapterVersion` are the diagnostic-only fields. -/
structure QueryShape where
  model : String
  select : Option (List String)
  whereF : Option FilterSpec
  orderBy : Option (List OrderBySpec)
  take : Option Int
  skip : Option Int
  cursor : Option CursorSpec
  distinct : Option (List String)
  groupBy : Option (List String)
  having : Option FilterSpec
  includeF : List IncludeEntry
  orm : Option String
  adapterVersion : Option String

def orderBySpecToJson (ob : OrderBySpec) : Json :=
  Json.obj (
    [("field", Json.str ob.field), ("direction", Json.str ob.direction)] ++
    optField "nulls" (ob.nulls.map Json.str) ++
    optField "collation" (ob.collation.map Json.str))

def cursorSpecToJson (c : CursorSpec) : Json :=
  Json.obj (
    [("fields", Json.arr (c.fields.map Json.str)), ("values", Json.arr c.values)] ++
    optField "before" (c.before.map Json.bool))

def filterAtomToJson (a : FilterAtom) : Json :=
  Json.obj (
    [("field", Json.str a.field), ("op", Json.str a.op)] ++
    optField "value" a.value ++
    (match a.path with
     | [] => []
     | l => [("path", Json.arr (l.map Json.str))]))

mutual

def filterSpecToJson : FilterSpec → Json
  | .mk a o n ats =>
    Json.obj (
      (match a with | none => [] | some l => [("and", Json.arr (filterSpecListToJson l))]) ++
      (match o with | none => [] | some l => [("or", Json.arr (filterSpecListToJson l))]) ++
      (match n with | none => [] | some f => [("not", filterSpecToJson f)]) ++
      (match ats with | none => [] | some l => [("atoms", Json.arr (l.map filterAtomToJson))]))

def filterSpecListToJson : List FilterSpec → List Json
  | [] => []
  | f :: fs => filterSpecToJson f :: filterSpecListToJson fs

end

def relationFilterBoundToJson (r : RelationFilterBound) : Json :=
  Json.obj (
    [("relation", Json.str r.relation), ("kind", Json.str r.kind)] ++
    (match r.whereF with
     | none => []
     | some f => [("where", filterSpecToJson f)]))

mutual

def includeSpecToJson : IncludeSpec → Json
  | .mk sel w ob tk sk dst inc rel sep =>
    Json.obj (
      optField "select" (sel.map (fun l => Json.arr (l.map Json.str))) ++
      (match w with | none => [] | some f => [("where", filterSpecToJson f)]) ++
      optField "orderBy" (ob.map (fun l => Json.arr (l.map orderBySpecToJson))) ++
      optField "take" (tk.map Json.num) ++
      optField "skip" (sk.map Json.num) ++
      optField "distinct" (dst.map (fun l => Json.arr (l.map Json.str))) ++
      (match inc with
       | [] => []
       | l => [("include", Json.obj (includeEntriesToJson l))]) ++
      (match rel with
       | none => []
       | some l => [("relationFilter", Json.arr (l.map relationFilterBoundToJson))]) ++
      optField "separateLoad" (sep.map Json.bool))

def includeEntriesToJson : List IncludeEntry → List (String × Json)
  | [] => []
  | .mk name spec :: rest => (name, includeSpecToJson spec) :: includeEntriesToJson rest

end

/-- The field list `json.Marshal` + `json.Unmarshal` produce from a
`QueryShape` (struct tag order; `omitempty` absences dropped). -/
def queryShapeFields (shape : QueryShape) : List (String × Json) :=
  [("model", Json.str shape.model)] ++
  optField "select" (shape.select.map (fun l => Json.arr (l.map Json.str))) ++
  optField "where" (shape.whereF.map filterSpecToJson) ++
  optField "orderBy" (shape.orderBy.map (fun l => Json.arr (l.map orderBySpecToJson))) ++
  optField "take" (shape.take.map Json.num) ++
  optField "skip" (shape.skip.map Json.num) ++
  optField "cursor" (shape.cursor.map cursorSpecToJson) ++
  optField "distinct" (shape.distinct.map (fun l => Json.arr (l.map Json.str))) ++
  optField "groupBy" (shape.groupBy.map (fun l => Json.arr (l.map Json.str))) ++
  optField "having" (shape.having.map filterSpecToJson) ++
  (match shape.includeF with
   | [] => []
   | l => [("include", Json.obj (includeEntriesToJson l))]) ++
  optField "orm" (shape.orm.map Json.str) ++
  optField "adapterVersion" (shape.adapterVersion.map Json.str)

/-- `CanonicalizeQueryShape` — marshal, delete the diagnostic keys `orm`
and `adapterVersion`, and produce the canonical JSON string. -/
def CanonicalizeQueryShape (shape : QueryShape) : String :=
  Canonicalize (Json.obj (removeKey "adapterVersion" (removeKey "orm" (queryShapeFields shape))))

/-- `ComputeQueryShapeID` — convenience wrapper: canonicalize, then hash. -/
def ComputeQueryShapeID (shape : QueryShape) : String :=
  ComputeShapeID (CanonicalizeQueryShape shape)


/-! ## General lemmas about the embedded operations -/

theorem seqE_eq_none_iff (x y : Option ValidationError) :
    seqE x y = none ↔ x = none ∧ y = none := by
  cases x <;> simp [seqE]

theorem dedupAux_eq_nil_iff (seen : List String) (l : List String) :
    dedupAux seen l = [] ↔ ∀ x ∈ l, x ∈ seen := by
  induction l generalizing seen with
  | nil => simp [dedupAux]
  | cons x xs ih =>
    by_cases hx : x ∈ seen
    · simp [dedupAux, hx, ih]
    · simp [dedupAux, hx]

theorem deduplicateStrings_eq_nil_iff (l : List String) :
    deduplicateStrings l = [] ↔ l = [] := by
  rw [deduplicateStrings, dedupAux_eq_nil_iff]
  simp [List.eq_nil_iff_forall_not_mem]

theorem mapLookup_mapInsert_ne (k k' : String) (v : A) (l : List (String × A))
    (h : k' ≠ k) : mapLookup k' (mapInsert k v l) = mapLookup k' l := by
  have h' : ¬ (k = k') := fun he => h he.symm
  induction l with
  | nil => simp [mapInsert, mapLookup, h']
  | cons p rest ih =>
    by_cases hp : p.1 = k
    · cases p with
      | mk pk pv =>
        simp only at hp
        subst hp
        simp [mapInsert, mapLookup, h']
    · simp [mapInsert, mapLookup, hp, ih]

theorem invalidateStep_state (cfg : MockEngineConfig) (st : MockState) (mu : Mutation) :
    (invalidateStep cfg st mu).1 = st := by
  rw [invalidateStep]
  split <;> rfl

/-- Membership in the batch evict set, under the default (conservative)
configuration. -/
theorem mem_evict_iff (cfg : MockEngineConfig) (st : MockState) (mu : Mutation) (sid : String)
    (hb : cfg.evictBehavior = "" ∨ cfg.evictBehavior = "conservative") :
    sid ∈ (invalidateStep cfg st mu).2.evict ↔
      ∃ deps, (sid, deps) ∈ st.shapes ∧
        ∃ c ∈ mu.changes, (mapLookup c.model deps.records).isSome := by
  have hcustom : ¬ (cfg.evictBehavior = "custom" ∧ cfg.customEvictList ≠ []) := by
    rcases hb with h | h <;> simp [h]
  rw [invalidateStep, if_neg hcustom]
  have hshould : ∀ c deps, shouldInvalidate cfg c deps = (mapLookup c.model deps.records).isSome := by
    intro c deps
    rcases hb with h | h <;> simp [shouldInvalidate, h]
  constructor
  · intro hmem
    obtain ⟨p, hp, hps⟩ := List.mem_map.mp hmem
    obtain ⟨hpmem, hpfilt⟩ := List.mem_filter.mp hp
    obtain ⟨c, hc, hcs⟩ := List.any_eq_true.mp hpfilt
    refine ⟨p.2, ?_, c, hc, ?_⟩
    · rw [← hps]; exact hpmem
    · rw [← hshould c p.2]; exact hcs
  · intro ⟨deps, hmem, c, hc, hcs⟩
    refine List.mem_map.mpr ⟨(sid, deps), List.mem_filter.mpr ⟨hmem, ?_⟩, rfl⟩
    exact List.any_eq_true.mpr ⟨c, hc, by rw [hshould c deps]; exact hcs⟩

theorem explainRule1_ne_nil_iff (deps : Dependencies) (c : Change) :
    explainRule1 deps c ≠ [] ↔
      ∃ ids, mapLookup c.model deps.records = some ids ∧ ids ≠ [] := by
  rw [explainRule1]
  cases hl : mapLookup c.model deps.records with
  | none => simp
  | some ids =>
    by_cases hp : 0 < ids.length
    · simp [hp, List.length_pos.mp hp]
    · have hnil : ids = [] := List.length_eq_zero.mp (by omega)
      simp [hp, hnil]

theorem explainRule2_ne_nil_iff (deps : Dependencies) (c : Change) :
    explainRule2 deps c ≠ [] ↔
      ∃ f ∈ deps.filters, filterReferencesModel f c.model = true := by
  rw [explainRule2]
  by_cases hg : 0 < deps.filters.length
  · by_cases ha : deps.filters.any (fun f => filterReferencesModel f c.model) = true
    · simp only [hg, if_pos, ha, if_true]
      simpa using List.any_eq_true.mp ha
    · simp only [hg, if_pos, if_neg ha]
      simp only [ne_eq, not_true_eq_false, not_false_eq_true, false_iff]
      intro hex
      exact ha (List.any_eq_true.mpr hex)
  · have hnil : deps.filters = [] := List.length_eq_zero.mp (by omega)
    simp [hg, hnil]

theorem includeTargets_eq_true_iff (m : String) (inc : Include) :
    includeTargets m inc = true ↔ ∃ q, inc.query = some q ∧ q.model = m := by
  rw [includeTargets]
  cases hq : inc.query with
  | none => simp
  | some q => simp

theorem explainRule3_ne_nil_iff (deps : Dependencies) (c : Change) :
    explainRule3 deps c ≠ [] ↔
      ∃ inc ∈ deps.includes, ∃ q, inc.query = some q ∧ q.model = c.model := by
  rw [explainRule3]
  by_cases hg : 0 < deps.includes.length
  · by_cases ha : deps.includes.any (includeTargets c.model) = true
    · simp only [hg, if_pos, ha, if_true]
      have hex := List.any_eq_true.mp ha
      simp only [includeTargets_eq_true_iff] at hex
      simpa using hex
    · simp only [hg, if_pos, if_neg ha]
      simp only [ne_eq, not_true_eq_false, not_false_eq_true, false_iff]
      intro ⟨inc, hmem, hq⟩
      exact ha (List.any_eq_true.mpr ⟨inc, hmem, (includeTargets_eq_true_iff c.model inc).mpr hq⟩)
  · have hnil : deps.includes = [] := List.length_eq_zero.mp (by omega)
    simp [hg, hnil]

/-- The reasons one change contributes in explain mode are non-empty iff
one of the three explain rules fires for that change. -/
theorem explainChangeReasons_ne_nil_iff (deps : Dependencies) (c : Change) :
    explainChangeReasons deps c ≠ [] ↔
      (∃ ids, mapLookup c.model deps.records = some ids ∧ ids ≠ []) ∨
      (∃ f ∈ deps.filters, filterReferencesModel f c.model = true) ∨
      (∃ inc ∈ deps.includes, ∃ q, inc.query = some q ∧ q.model = c.model) := by
  rw [explainChangeReasons]
  rw [show ∀ p1 p2 p3 : List String, (p1 ++ p2 ++ p3 ≠ []) ↔ (p1 ≠ [] ∨ p2 ≠ [] ∨ p3 ≠ [])
      from fun p1 p2 p3 => by rw [ne_eq, List.append_eq_nil, List.append_eq_nil]; tauto]
  rw [explainRule1_ne_nil_iff, explainRule2_ne_nil_iff, explainRule3_ne_nil_iff]

/-- The explain result for a stored shape id is `true` iff some change
fires some rule. -/
theorem explainStep_invalidate_iff (st : MockState) (req : ExplainRequest) (deps : Dependencies)
    (h : mapLookup req.shapeID st.shapes = some deps) :
    (explainStep st req).invalidate = true ↔
      ∃ c ∈ req.mutation.changes, explainChangeReasons deps c ≠ [] := by
  rw [explainStep, h]
  simp only [decide_eq_true_eq]
  rw [List.length_pos, ne_eq, deduplicateStrings_eq_nil_iff]
  rw [List.flatMap_eq_nil_iff]
  push_neg
  simp only [ne_eq]

/-! ## Lemmas about the fingerprint format -/

/-- The sixteen lowercase hexadecimal digit characters. -/
def lowercaseHexDigits : List Char :=
  "0123456789abcdef".toList

theorem hexDigit_mem (n : Nat) (h : n < 16) : hexDigit n ∈ lowercaseHexDigits := by
  revert n
  decide

theorem byteHex_mem (b : Nat) (h : b < 256) : ∀ c ∈ byteHex b, c ∈ lowercaseHexDigits := by
  intro c hc
  rw [byteHex] at hc
  rcases List.mem_pair.mp hc with h1 | h1 <;> subst h1
  · exact hexDigit_mem _ (Nat.div_lt_of_lt_mul (by omega))
  · exact hexDigit_mem _ (Nat.mod_lt _ (by omega))

theorem sha256Bytes_length (msg : List Nat) : (sha256Bytes msg).length = 32 := by
  rw [sha256Bytes, wordsToBytes]
  rfl

theorem sha256Bytes_lt (msg : List Nat) : ∀ b ∈ sha256Bytes msg, b < 256 := by
  intro b hb
  rw [sha256Bytes, wordsToBytes] at hb
  obtain ⟨w, _, hw⟩ := List.mem_flatMap.mp hb
  have hle : ∀ x : Nat, x &&& 255 < 256 := fun x => Nat.lt_succ_of_le Nat.and_le_right
  simp only [List.mem_cons, List.not_mem_nil, or_false] at hw
  rcases hw with h | h | h | h <;> subst h <;> exact hle _

theorem flatMap_byteHex_length (bs : List Nat) : (bs.flatMap byteHex).length = 2 * bs.length := by
  induction bs with
  | nil => simp
  | cons b rest ih =>
    simp only [List.flatMap_cons, List.length_append, ih, byteHex]
    simp only [List.length_cons, List.length_nil]
    omega

theorem bytesToHex_length (bs : List Nat) : (bytesToHex bs).length = 2 * bs.length := by
  rw [bytesToHex]
  show (bs.flatMap byteHex).length = 2 * bs.length
  exact flatMap_byteHex_length bs

/-! ## Claim theorems -/

/-- C9: for every canonical string `s`, `ComputeShapeID s` is the fixed
prefix `s_` followed by the lowercase hexadecimal rendering of the SHA-256
hash of the UTF-8 bytes of `s`; the output has fixed total length 66
(2-character prefix plus 64 hex digits), its first two characters are
`s` and `_`, and every later character is a lowercase hex digit. The
function is deterministic because it is a pure function of `s`. -/
theorem c9_fingerprint_format (s : String) :
    ComputeShapeID s = "s_" ++ bytesToHex (sha256Bytes (stringUtf8 s)) ∧
    (ComputeShapeID s).length = 66 ∧
    (ComputeShapeID s).toList.take 2 = ['s', '_'] ∧
    (∀ c ∈ (ComputeShapeID s).toList.drop 2, c ∈ lowercaseHexDigits) := by
  have hdata : (ComputeShapeID s).toList =
      's' :: '_' :: (sha256Bytes (stringUtf8 s)).flatMap byteHex := by
    rw [ComputeShapeID]
    show ("s_" ++ bytesToHex (sha256Bytes (stringUtf8 s))).data = _
    rw [String.data_append]
    rfl
  refine ⟨rfl, ?_, ?_, ?_⟩
  · rw [ComputeShapeID, String.length_append, bytesToHex_length, sha256Bytes_length]
    rfl
  · rw [hdata]
    rfl
  · intro c hc
    rw [hdata] at hc
    have hdrop : List.drop 2 ('s' :: '_' :: (sha256Bytes (stringUtf8 s)).flatMap byteHex) =
        (sha256Bytes (stringUtf8 s)).flatMap byteHex := rfl
    rw [hdrop] at hc
    obtain ⟨b, hbmem, hcb⟩ := List.mem_flatMap.mp hc
    exact byteHex_mem b (sha256Bytes_lt _ b hbmem) c hcb

/-- C10: `ValidateQueryShape` accepts a Statement whose `query` is absent:
when `query` is `none`, no check on model, where, order_by, limit, offset
or distinct runs, and validation succeeds exactly when the remaining
groupBy/having/pagination/includes blocks succeed — in particular a
Statement with no query (and hence no model) passes. -/
theorem c10_nil_query_skips_query_checks (stmt : Statement) (h : stmt.query = none) :
    ValidateQueryShape stmt = none ↔
      statementGroupByCheck stmt = none ∧ statementHavingCheck stmt = none ∧
      statementPaginationCheck stmt = none ∧ statementIncludesCheck stmt = none := by
  have hq : statementQueryCheck stmt = none := by
    rw [statementQueryCheck, h]
  rw [ValidateQueryShape, hq, show ∀ r, seqE none r = r from fun _ => rfl,
      seqE_eq_none_iff, seqE_eq_none_iff, seqE_eq_none_iff]

/-- A Statement with no query at all passes validation. -/
theorem c10_witness :
    ValidateQueryShape ⟨none, none, none, none, [], none, none⟩ = none :=
  (c10_nil_query_skips_query_checks ⟨none, none, none, none, [], none, none⟩ rfl).mpr
    ⟨rfl, rfl, rfl, rfl⟩

theorem validateSetClauses_eq_none (l : List KV) (path : String) (j : Nat)
    (h : ∀ kv ∈ l, kv.field ≠ "") : validateSetClauses l path j = none := by
  induction l generalizing j with
  | nil => rfl
  | cons kv rest ih =>
    rw [validateSetClauses]
    rw [if_neg (h kv (List.mem_cons_self kv rest))]
    exact ih (j + 1) (fun x hx => h x (List.mem_cons_of_mem kv hx))

/-- C8: validation of a Change enforces the per-action invariants and
rejects exactly the violating shapes: an insert with empty sets or a where
clause is rejected; an update with empty sets or no where clause is
rejected; a delete with non-empty sets or no where clause is rejected; and
a change with a recognized action that satisfies its action's
requirements passes (the remaining checks being the non-empty model,
non-empty set fields, and a valid where filter). -/
theorem c8_change_action_invariants (c : Change) (path : String) :
    (c.action = "insert" → (c.sets = [] ∨ c.whereF ≠ none) →
      (validateDataChange c path).isSome) ∧
    (c.action = "update" → (c.sets = [] ∨ c.whereF = none) →
      (validateDataChange c path).isSome) ∧
    (c.action = "delete" → (c.sets ≠ [] ∨ c.whereF = none) →
      (validateDataChange c path).isSome) ∧
    (c.model ≠ "" →
     ((c.action = "insert" ∧ c.sets ≠ [] ∧ c.whereF = none) ∨
      (c.action = "update" ∧ c.sets ≠ [] ∧ c.whereF ≠ none) ∨
      (c.action = "delete" ∧ c.sets = [] ∧ c.whereF ≠ none)) →
     (∀ kv ∈ c.sets, kv.field ≠ "") →
     (∀ f, c.whereF = some f → validateFilterSpec f (path ++ ".where") = none) →
     validateDataChange c path = none) := by
  refine ⟨?_, ?_, ?_, ?_⟩
  · intro ha hv
    by_cases hm : c.model = ""
    · simp [validateDataChange, hm]
    · rcases hv with hs | hw
      · simp [validateDataChange, hm, ha, hs, seqE]
      · obtain ⟨f, hf⟩ := Option.ne_none_iff_exists'.mp hw
        by_cases hs : c.sets.length = 0
        · simp [validateDataChange, hm, ha, hs, seqE]
        · simp [validateDataChange, hm, ha, hs, hf, seqE]
  · intro ha hv
    by_cases hm : c.model = ""
    · simp [validateDataChange, hm]
    · rcases hv with hs | hw
      · simp [validateDataChange, hm, ha, hs, seqE]
      · by_cases hs : c.sets.length = 0
        · simp [validateDataChange, hm, ha, hs, seqE]
        · simp [validateDataChange, hm, ha, hs, hw, seqE]
  · intro ha hv
    by_cases hm : c.model = ""
    · simp [validateDataChange, hm]
    · rcases hv with hs | hw
      · have hs' : 0 < c.sets.length := List.length_pos.mpr hs
        simp [validateDataChange, hm, ha, hs', seqE]
      · by_cases hs : 0 < c.sets.length
        · simp [validateDataChange, hm, ha, hs, seqE]
        · simp [validateDataChange, hm, ha, hs, hw, seqE]
  · intro hm hcase hsets hwhere
    have hset_none : validateSetClauses c.sets path 0 = none :=
      validateSetClauses_eq_none c.sets path 0 hsets
    rcases hcase with ⟨ha, hs, hw⟩ | ⟨ha, hs, hw⟩ | ⟨ha, hs, hw⟩
    · have hs' : ¬ c.sets.length = 0 := by
        simpa [List.length_eq_zero] using hs
      simp [validateDataChange, hm, ha, hs', hw, seqE, hset_none]
    · obtain ⟨f, hf⟩ := Option.ne_none_iff_exists'.mp hw
      have hs' : ¬ c.sets.length = 0 := by
        simpa [List.length_eq_zero] using hs
      simp [validateDataChange, hm, ha, hs', hf, seqE, hset_none, hwhere f hf]
    · obtain ⟨f, hf⟩ := Option.ne_none_iff_exists'.mp hw
      simp [validateDataChange, hm, ha, hs, hf, seqE, validateSetClauses, hwhere f hf]

/-- A valid insert passes; an insert with empty sets, an update without a
where clause, and a delete with sets are each rejected. -/
theorem c8_witness :
    validateDataChange ⟨"posts", "insert", [⟨"title", Json.str "x"⟩], none⟩ "p" = none ∧
    (validateDataChange ⟨"posts", "insert", [], none⟩ "p").isSome ∧
    (validateDataChange ⟨"posts", "update", [⟨"title", Json.str "x"⟩], none⟩ "p").isSome ∧
    (validateDataChange ⟨"posts", "delete", [⟨"title", Json.str "x"⟩],
        some (Filter.mk none none none none)⟩ "p").isSome := by
  refine ⟨?_, ?_, ?_, ?_⟩
  · exact (c8_change_action_invariants ⟨"posts", "insert", [⟨"title", Json.str "x"⟩], none⟩ "p").2.2.2
      (by decide) (Or.inl ⟨rfl, by simp, rfl⟩)
      (by intro kv hkv
          rw [List.mem_singleton] at hkv
          subst hkv
          decide)
      (by intro f hf; cases hf)
  · exact (c8_change_action_invariants ⟨"posts", "insert", [], none⟩ "p").1 rfl (Or.inl rfl)
  · exact (c8_change_action_invariants ⟨"posts", "update", [⟨"title", Json.str "x"⟩], none⟩ "p").2.1
      rfl (Or.inr rfl)
  · exact (c8_change_action_invariants ⟨"posts", "delete", [⟨"title", Json.str "x"⟩],
      some (Filter.mk none none none none)⟩ "p").2.2.1 rfl (Or.inl (by simp))

theorem mem_of_mapLookup (k : String) (l : List (String × A)) (v : A)
    (h : mapLookup k l = some v) : (k, v) ∈ l := by
  induction l with
  | nil => cases h
  | cons p rest ih =>
    cases p with
    | mk pk pv =>
      rw [mapLookup] at h
      by_cases hk : pk = k
      · rw [if_pos hk] at h
        subst hk
        cases h
        exact List.mem_cons_self _ _
      · rw [if_neg hk] at h
        exact List.mem_cons_of_mem _ (ih h)

/-- C3: for every Mutation containing a change on model M and every stored
Dependencies record whose records map has an entry for M, the batch
`Invalidate` result (under the default conservative configuration)
includes that record's fingerprint. -/
theorem c3_conservative_invalidation (cfg : MockEngineConfig) (st : MockState) (mu : Mutation)
    (sid : String) (deps : Dependencies) (M : String)
    (hb : cfg.evictBehavior = "" ∨ cfg.evictBehavior = "conservative")
    (hmem : (sid, deps) ∈ st.shapes)
    (hc : ∃ c ∈ mu.changes, c.model = M)
    (hrec : (mapLookup M deps.records).isSome) :
    sid ∈ (invalidateStep cfg st mu).2.evict := by
  obtain ⟨c, hcmem, hcm⟩ := hc
  exact (mem_evict_iff cfg st mu sid hb).mpr ⟨deps, hmem, c, hcmem, by rw [hcm]; exact hrec⟩

/-- A mutation updating tracked model `posts` evicts the stored shape. -/
theorem c3_witness :
    "f" ∈ (invalidateStep ⟨none, "", [], false⟩
      ⟨none, [("f", ⟨"f", [("posts", ["1"])], [], [], none, none⟩)]⟩
      ⟨none, [⟨"posts", "update", [⟨"published", Json.bool false⟩],
        some (Filter.mk none none none (some [⟨"id", [], "eq", some (Json.str "1")⟩]))⟩]⟩).2.evict :=
  c3_conservative_invalidation ⟨none, "", [], false⟩
    ⟨none, [("f", ⟨"f", [("posts", ["1"])], [], [], none, none⟩)]⟩
    ⟨none, [⟨"posts", "update", [⟨"published", Json.bool false⟩],
      some (Filter.mk none none none (some [⟨"id", [], "eq", some (Json.str "1")⟩]))⟩]⟩
    "f" ⟨"f", [("posts", ["1"])], [], [], none, none⟩ "posts"
    (Or.inl rfl) (List.mem_singleton.mpr rfl)
    ⟨⟨"posts", "update", [⟨"published", Json.bool false⟩],
      some (Filter.mk none none none (some [⟨"id", [], "eq", some (Json.str "1")⟩]))⟩,
      List.mem_singleton.mpr rfl, rfl⟩
    rfl

/-- Batch eviction of a stored record, characterized by record membership
(conservative configuration, store keyed uniquely at `sid`). -/
theorem invalidate_mem_char (cfg : MockEngineConfig) (st : MockState) (mu : Mutation)
    (sid : String) (deps : Dependencies)
    (hb : cfg.evictBehavior = "" ∨ cfg.evictBehavior = "conservative")
    (hlook : mapLookup sid st.shapes = some deps)
    (huniq : ∀ d, (sid, d) ∈ st.shapes → d = deps) :
    sid ∈ (invalidateStep cfg st mu).2.evict ↔
      ∃ c ∈ mu.changes, (mapLookup c.model deps.records).isSome := by
  rw [mem_evict_iff cfg st mu sid hb]
  constructor
  · intro ⟨deps', hmem', c, hc, hcs⟩
    have hd := huniq deps' hmem'
    subst hd
    exact ⟨c, hc, hcs⟩
  · intro ⟨c, hc, hcs⟩
    exact ⟨deps, mem_of_mapLookup sid st.shapes deps hlook, c, hc, hcs⟩

/-- The explain result of a stored record, characterized by the three
per-change rules. -/
theorem explain_rules_char (st : MockState) (mu : Mutation) (sid : String) (deps : Dependencies)
    (hlook : mapLookup sid st.shapes = some deps) :
    (explainStep st ⟨mu, sid⟩).invalidate = true ↔
      ∃ c ∈ mu.changes,
        (∃ ids, mapLookup c.model deps.records = some ids ∧ ids ≠ []) ∨
        (∃ f ∈ deps.filters, filterReferencesModel f c.model = true) ∨
        (∃ inc ∈ deps.includes, ∃ q, inc.query = some q ∧ q.model = c.model) := by
  rw [explainStep_invalidate_iff st ⟨mu, sid⟩ deps hlook]
  exact exists_congr fun c =>
    and_congr_right fun _ => explainChangeReasons_ne_nil_iff deps c

/-- C4 (amended): a Mutation touching only model M2 is never
batch-invalidated for a record whose records track only M1 ≠ M2 —
regardless of the record's stored filters and includes; and for a
non-empty such Mutation, `ExplainInvalidation` returns
`should_invalidate = false` exactly when no stored filter references M2
in the mock's sense (`filterReferencesModel`, which ignores the model and
holds for any filter with a non-empty condition list) and no stored
include queries M2. -/
theorem c4_unrelated_model_safety (cfg : MockEngineConfig) (st : MockState) (mu : Mutation)
    (sid : String) (deps : Dependencies) (M1 M2 : String)
    (hb : cfg.evictBehavior = "" ∨ cfg.evictBehavior = "conservative")
    (hlook : mapLookup sid st.shapes = some deps)
    (huniq : ∀ d, (sid, d) ∈ st.shapes → d = deps)
    (hM : M1 ≠ M2)
    (hrec : ∀ M, (mapLookup M deps.records).isSome → M = M1)
    (hch : ∀ c ∈ mu.changes, c.model = M2) :
    sid ∉ (invalidateStep cfg st mu).2.evict ∧
    (mu.changes ≠ [] →
      ((explainStep st ⟨mu, sid⟩).invalidate = false ↔
        (∀ f ∈ deps.filters, filterReferencesModel f M2 = false) ∧
        (∀ inc ∈ deps.includes, ∀ q, inc.query = some q → q.model ≠ M2))) := by
  have hex := explain_rules_char st mu sid deps hlook
  constructor
  · intro hmem
    obtain ⟨deps', hmem', c, hcmem, hcs⟩ := (mem_evict_iff cfg st mu sid hb).mp hmem
    have hd := huniq deps' hmem'
    subst hd
    have h1 : c.model = M1 := hrec c.model hcs
    have h2 : c.model = M2 := hch c hcmem
    exact hM (h1 ▸ h2)
  · intro hne
    constructor
    · intro hfalse
      have hnotrue : ¬ (explainStep st ⟨mu, sid⟩).invalidate = true := by
        rw [hfalse]
        exact Bool.false_ne_true
      rw [hex] at hnotrue
      push_neg at hnotrue
      obtain ⟨c, hcmem⟩ := List.exists_mem_of_ne_nil mu.changes hne
      have hrules := hnotrue c hcmem
      push_neg at hrules
      constructor
      · intro f hf
        rcases Bool.eq_false_or_eq_true (filterReferencesModel f M2) with h | h
        · exfalso
          exact hrules.2.1 f hf (by rw [hch c hcmem]; exact h)
        · exact h
      · intro inc hi q hq hqm
        exact hrules.2.2 inc hi q hq (hqm.trans (hch c hcmem).symm)
    · intro ⟨hfil, hinc⟩
      rcases Bool.eq_false_or_eq_true ((explainStep st ⟨mu, sid⟩).invalidate) with h | h
      · exfalso
        obtain ⟨c, hcmem, hr⟩ := hex.mp h
        rcases hr with ⟨ids, hl, _⟩ | ⟨f, hfmem, hft⟩ | ⟨inc, hincmem, q, hq, hqm⟩
        · have h1 : c.model = M1 := hrec c.model (by rw [hl]; rfl)
          exact hM (h1 ▸ hch c hcmem)
        · rw [hch c hcmem, hfil f hfmem] at hft
          cases hft
        · exact hinc inc hincmem q hq (hqm.trans (hch c hcmem))
      · exact h

/-- An unrelated-model write at a concrete input: records track only
`posts`; a non-empty write to `users` is not evicted, and since the
record stores no filters and no includes, the explain characterization
yields `should_invalidate = false`. -/
theorem c4_witness :
    "f" ∉ (invalidateStep ⟨none, "", [], false⟩
      ⟨none, [("f", ⟨"f", [("posts", ["1"])], [], [], none, none⟩)]⟩
      ⟨none, [⟨"users", "insert", [⟨"name", Json.str "bob"⟩], none⟩]⟩).2.evict ∧
    (explainStep ⟨none, [("f", ⟨"f", [("posts", ["1"])], [], [], none, none⟩)]⟩
      ⟨⟨none, [⟨"users", "insert", [⟨"name", Json.str "bob"⟩], none⟩]⟩, "f"⟩).invalidate = false := by
  have H := c4_unrelated_model_safety ⟨none, "", [], false⟩
    ⟨none, [("f", ⟨"f", [("posts", ["1"])], [], [], none, none⟩)]⟩
    ⟨none, [⟨"users", "insert", [⟨"name", Json.str "bob"⟩], none⟩]⟩
    "f" ⟨"f", [("posts", ["1"])], [], [], none, none⟩ "posts" "users"
    (Or.inl rfl) rfl
    (fun _d hd => congrArg Prod.snd (List.mem_singleton.mp hd))
    (by decide)
    (by intro M h
        rcases eq_or_ne "posts" M with he | he
        · exact he.symm
        · rw [show mapLookup M [("posts", ["1"])] = none from by
            rw [mapLookup, if_neg he]; rfl] at h
          cases h)
    (by intro c hc
        rw [List.mem_singleton] at hc
        subst hc
        rfl)
  exact ⟨H.1, (H.2 (by simp)).mpr
    ⟨fun f hf => absurd hf (List.not_mem_nil f),
     fun inc hi => absurd hi (List.not_mem_nil inc)⟩⟩

/-- C4 as literally stated fails on the code: a record tracking only
`posts` rows whose single filter conditions only the posts field `title`
(no reference to `users`) is still explained as invalidated by a write
touching only `users`, because the mock's `filterReferencesModel` ignores
the model and fires on any non-empty condition list. -/
theorem c4_counterexample :
    (explainStep
      ⟨none, [("f", ⟨"f", [("posts", ["1"])],
        [Filter.mk none none none (some [⟨"title", [], "eq", some (Json.str "hello")⟩])],
        [], none, none⟩)]⟩
      ⟨⟨none, [⟨"users", "insert", [⟨"name", Json.str "bob"⟩], none⟩]⟩, "f"⟩).invalidate = true := by
  rfl

/-- C1 (amended): under the default conservative configuration, for a
stored record the two modes are characterized differently — batch
`Invalidate` evicts iff some change's model has an entry in `records`,
while `ExplainInvalidation` returns true iff some change fires record
membership (with a non-empty id list), filter dependency, or relation
dependency; hence batch eviction implies explain's `should_invalidate`
whenever no tracked id list is empty, but not conversely. -/
theorem c1_batch_vs_explain (cfg : MockEngineConfig) (st : MockState) (mu : Mutation)
    (sid : String) (deps : Dependencies)
    (hb : cfg.evictBehavior = "" ∨ cfg.evictBehavior = "conservative")
    (hlook : mapLookup sid st.shapes = some deps)
    (huniq : ∀ d, (sid, d) ∈ st.shapes → d = deps) :
    (sid ∈ (invalidateStep cfg st mu).2.evict ↔
       ∃ c ∈ mu.changes, (mapLookup c.model deps.records).isSome) ∧
    ((explainStep st ⟨mu, sid⟩).invalidate = true ↔
       ∃ c ∈ mu.changes,
         (∃ ids, mapLookup c.model deps.records = some ids ∧ ids ≠ []) ∨
         (∃ f ∈ deps.filters, filterReferencesModel f c.model = true) ∨
         (∃ inc ∈ deps.includes, ∃ q, inc.query = some q ∧ q.model = c.model)) ∧
    ((∀ m ids, mapLookup m deps.records = some ids → ids ≠ []) →
       sid ∈ (invalidateStep cfg st mu).2.evict →
       (explainStep st ⟨mu, sid⟩).invalidate = true) := by
  have h1 := invalidate_mem_char cfg st mu sid deps hb hlook huniq
  have h2 := explain_rules_char st mu sid deps hlook
  refine ⟨h1, h2, ?_⟩
  intro hne hmem
  obtain ⟨c, hc, hcs⟩ := h1.mp hmem
  obtain ⟨ids, hids⟩ := Option.isSome_iff_exists.mp hcs
  exact h2.mpr ⟨c, hc, Or.inl ⟨ids, hids, hne c.model ids hids⟩⟩

/-- C1 as literally stated fails on the code: for a stored record with no
tracked rows and one filter with a condition, a write leaves the batch
evict set empty while explain mode reports `should_invalidate = true`,
so the two modes disagree. -/
theorem c1_counterexample :
    ¬ (("f" ∈ (invalidateStep ⟨none, "", [], false⟩
          ⟨none, [("f", ⟨"f", [],
            [Filter.mk none none none (some [⟨"views", [], "gt", some (Json.num 100)⟩])],
            [], none, none⟩)]⟩
          ⟨none, [⟨"posts", "update", [⟨"views", Json.num 200⟩],
            some (Filter.mk none none none (some [⟨"id", [], "eq", some (Json.str "1")⟩]))⟩]⟩).2.evict) ↔
        ((explainStep
          ⟨none, [("f", ⟨"f", [],
            [Filter.mk none none none (some [⟨"views", [], "gt", some (Json.num 100)⟩])],
            [], none, none⟩)]⟩
          ⟨⟨none, [⟨"posts", "update", [⟨"views", Json.num 200⟩],
            some (Filter.mk none none none (some [⟨"id", [], "eq", some (Json.str "1")⟩]))⟩]⟩,
           "f"⟩).invalidate = true)) := by
  intro h
  have hexp : (explainStep
      ⟨none, [("f", ⟨"f", [],
        [Filter.mk none none none (some [⟨"views", [], "gt", some (Json.num 100)⟩])],
        [], none, none⟩)]⟩
      ⟨⟨none, [⟨"posts", "update", [⟨"views", Json.num 200⟩],
        some (Filter.mk none none none (some [⟨"id", [], "eq", some (Json.str "1")⟩]))⟩]⟩,
       "f"⟩).invalidate = true := rfl
  have hmem := h.mpr hexp
  have hev : (invalidateStep ⟨none, "", [], false⟩
      ⟨none, [("f", ⟨"f", [],
        [Filter.mk none none none (some [⟨"views", [], "gt", some (Json.num 100)⟩])],
        [], none, none⟩)]⟩
      ⟨none, [⟨"posts", "update", [⟨"views", Json.num 200⟩],
        some (Filter.mk none none none (some [⟨"id", [], "eq", some (Json.str "1")⟩]))⟩]⟩).2.evict
      = [] := rfl
  rw [hev] at hmem
  exact List.not_mem_nil "f" hmem

/-- At the counterexample state, the amended characterization applies:
explain mode invalidates through the filter-dependency rule. -/
theorem c1_witness :
    (explainStep
      ⟨none, [("f", ⟨"f", [],
        [Filter.mk none none none (some [⟨"views", [], "gt", some (Json.num 100)⟩])],
        [], none, none⟩)]⟩
      ⟨⟨none, [⟨"posts", "update", [⟨"views", Json.num 200⟩],
        some (Filter.mk none none none (some [⟨"id", [], "eq", some (Json.str "1")⟩]))⟩]⟩,
       "f"⟩).invalidate = true :=
  (c1_batch_vs_explain ⟨none, "", [], false⟩
    ⟨none, [("f", ⟨"f", [],
      [Filter.mk none none none (some [⟨"views", [], "gt", some (Json.num 100)⟩])],
      [], none, none⟩)]⟩
    ⟨none, [⟨"posts", "update", [⟨"views", Json.num 200⟩],
      some (Filter.mk none none none (some [⟨"id", [], "eq", some (Json.str "1")⟩]))⟩]⟩
    "f" ⟨"f", [],
      [Filter.mk none none none (some [⟨"views", [], "gt", some (Json.num 100)⟩])],
      [], none, none⟩
    (Or.inl rfl) rfl
    (fun _d hd => congrArg Prod.snd (List.mem_singleton.mp hd))).2.1.mpr
    ⟨⟨"posts", "update", [⟨"views", Json.num 200⟩],
      some (Filter.mk none none none (some [⟨"id", [], "eq", some (Json.str "1")⟩]))⟩,
     List.mem_singleton.mpr rfl,
     Or.inr (Or.inl ⟨Filter.mk none none none (some [⟨"views", [], "gt", some (Json.num 100)⟩]),
       List.mem_singleton.mpr rfl, rfl⟩)⟩

/-- C5 (amended): the mock engine has no special `custom:*` rule. A stored
filter containing a `custom:*` condition makes explain mode report
`should_invalidate = true` for any non-empty mutation — because any filter
with a non-empty condition list fires the filter-dependency rule — while
batch `Invalidate` still evicts only by record membership, so such a
filter alone never causes a batch eviction. -/
theorem c5_custom_operator (cfg : MockEngineConfig) (st : MockState) (mu : Mutation)
    (sid : String) (deps : Dependencies)
    (hb : cfg.evictBehavior = "" ∨ cfg.evictBehavior = "conservative")
    (hlook : mapLookup sid st.shapes = some deps)
    (huniq : ∀ d, (sid, d) ∈ st.shapes → d = deps)
    (hcust : ∃ f ∈ deps.filters, ∃ conds, f.conditions = some conds ∧
       ∃ cond ∈ conds, isCustomOp cond.op = true)
    (hmu : mu.changes ≠ []) :
    (explainStep st ⟨mu, sid⟩).invalidate = true ∧
    (sid ∈ (invalidateStep cfg st mu).2.evict ↔
       ∃ c ∈ mu.changes, (mapLookup c.model deps.records).isSome) := by
  obtain ⟨f, hfmem, conds, hconds, cond, hcondmem, _⟩ := hcust
  obtain ⟨c, hc⟩ := List.exists_mem_of_ne_nil mu.changes hmu
  constructor
  · refine (explain_rules_char st mu sid deps hlook).mpr
      ⟨c, hc, Or.inr (Or.inl ⟨f, hfmem, ?_⟩)⟩
    rw [filterReferencesModel, hconds]
    simp [List.length_pos, List.ne_nil_of_mem hcondmem]
  · exact invalidate_mem_char cfg st mu sid deps hb hlook huniq

/-- C5 as literally stated fails on the code: a stored record whose only
dependency information is a filter with a `custom:near` operator is not
batch-evicted by a write (its records map is empty, and batch mode checks
only record membership), although the claim requires unconditional
invalidation. -/
theorem c5_counterexample :
    "f" ∉ (invalidateStep ⟨none, "", [], false⟩
      ⟨none, [("f", ⟨"f", [],
        [Filter.mk none none none (some [⟨"meta", [], "custom:near", some (Json.str "x")⟩])],
        [], none, none⟩)]⟩
      ⟨none, [⟨"posts", "insert", [⟨"title", Json.str "t"⟩], none⟩]⟩).2.evict := by
  intro hmem
  have hev : (invalidateStep ⟨none, "", [], false⟩
      ⟨none, [("f", ⟨"f", [],
        [Filter.mk none none none (some [⟨"meta", [], "custom:near", some (Json.str "x")⟩])],
        [], none, none⟩)]⟩
      ⟨none, [⟨"posts", "insert", [⟨"title", Json.str "t"⟩], none⟩]⟩).2.evict = [] := rfl
  rw [hev] at hmem
  exact List.not_mem_nil "f" hmem

/-- At the same state, the amended claim holds: explain mode reports
`should_invalidate = true` for the custom-operator filter. -/
theorem c5_witness :
    (explainStep
      ⟨none, [("f", ⟨"f", [],
        [Filter.mk none none none (some [⟨"meta", [], "custom:near", some (Json.str "x")⟩])],
        [], none, none⟩)]⟩
      ⟨⟨none, [⟨"posts", "insert", [⟨"title", Json.str "t"⟩], none⟩]⟩, "f"⟩).invalidate = true :=
  (c5_custom_operator ⟨none, "", [], false⟩
    ⟨none, [("f", ⟨"f", [],
      [Filter.mk none none none (some [⟨"meta", [], "custom:near", some (Json.str "x")⟩])],
      [], none, none⟩)]⟩
    ⟨none, [⟨"posts", "insert", [⟨"title", Json.str "t"⟩], none⟩]⟩
    "f" ⟨"f", [],
      [Filter.mk none none none (some [⟨"meta", [], "custom:near", some (Json.str "x")⟩])],
      [], none, none⟩
    (Or.inl rfl) rfl
    (fun _d hd => congrArg Prod.snd (List.mem_singleton.mp hd))
    ⟨Filter.mk none none none (some [⟨"meta", [], "custom:near", some (Json.str "x")⟩]),
      List.mem_singleton.mpr rfl,
      [⟨"meta", [], "custom:near", some (Json.str "x")⟩], rfl,
      ⟨"meta", [], "custom:near", some (Json.str "x")⟩, List.mem_singleton.mpr rfl,
      by decide⟩
    (by simp)).1

/-- C6 (amended): `Invalidate` computes the evict set without modifying
the store — an evicted fingerprint's record stays stored; the store loses
records only through `Reset` (which clears everything), while `AddQuery`
touches only the entry at its computed shape id and `SetSchema` leaves the
store unchanged. -/
theorem c6_store_transitions :
    (∀ cfg st mu, (invalidateStep cfg st mu).1 = st) ∧
    (∀ st, (resetStep st).shapes = []) ∧
    (∀ cfg st req sid, sid ≠ computeShapeIDInternal cfg req.shape →
       mapLookup sid (addQueryStep cfg st req).1.shapes = mapLookup sid st.shapes) ∧
    (∀ st schema, (setSchemaStep st schema).shapes = st.shapes) := by
  refine ⟨invalidateStep_state, fun _ => rfl, ?_, fun _ _ => rfl⟩
  intro cfg st req sid hne
  exact mapLookup_mapInsert_ne (computeShapeIDInternal cfg req.shape) sid _ st.shapes hne

/-- AddQuery with a configured generator producing "g" leaves the record
stored under "f" unchanged, and Invalidate never changes the state. -/
theorem c6_witness :
    mapLookup "f" (addQueryStep ⟨some (fun _ => "g"), "", [], false⟩
        ⟨none, [("f", ⟨"f", [("posts", ["1"])], [], [], none, none⟩)]⟩
        ⟨⟨none, none, none, none, [], none, none⟩, none⟩).1.shapes
      = mapLookup "f" (⟨none, [("f", ⟨"f", [("posts", ["1"])], [], [], none, none⟩)]⟩ :
          MockState).shapes :=
  c6_store_transitions.2.2.1 ⟨some (fun _ => "g"), "", [], false⟩
    ⟨none, [("f", ⟨"f", [("posts", ["1"])], [], [], none, none⟩)]⟩
    ⟨⟨none, none, none, none, [], none, none⟩, none⟩ "f" (by decide)

/-- C6 as literally stated fails on the code: `Invalidate` returns a set
containing the fingerprint "f", yet the record stored under "f" is still
present after the call — the method never deletes store entries. -/
theorem c6_counterexample :
    "f" ∈ (invalidateStep ⟨none, "", [], false⟩
      ⟨none, [("f", ⟨"f", [("posts", ["1"])], [], [], none, none⟩)]⟩
      ⟨none, [⟨"posts", "insert", [⟨"title", Json.str "t"⟩], none⟩]⟩).2.evict ∧
    mapLookup "f" (invalidateStep ⟨none, "", [], false⟩
      ⟨none, [("f", ⟨"f", [("posts", ["1"])], [], [], none, none⟩)]⟩
      ⟨none, [⟨"posts", "insert", [⟨"title", Json.str "t"⟩], none⟩]⟩).1.shapes
      = some ⟨"f", [("posts", ["1"])], [], [], none, none⟩ := by
  constructor
  · have hev : (invalidateStep ⟨none, "", [], false⟩
        ⟨none, [("f", ⟨"f", [("posts", ["1"])], [], [], none, none⟩)]⟩
        ⟨none, [⟨"posts", "insert", [⟨"title", Json.str "t"⟩], none⟩]⟩).2.evict = ["f"] := rfl
    rw [hev]
    exact List.mem_singleton.mpr rfl
  · rfl

/-- C7: `AddQuery` copies the statement's top-level includes verbatim into
the Dependencies record; at the failing input — a statement with one
kind-less top-level include wrapping a nested `kind = some` include — the
stored `includes` is exactly the kind-less top node (contradicting the
claim that exactly the kind-bearing nodes of every depth are collected),
and the nested kind-bearing node is not stored. -/
theorem c7_addquery_includes_verbatim :
    ((addQueryStep ⟨some (fun _ => "sid"), "", [], false⟩ ⟨none, []⟩
        ⟨⟨some ⟨"posts", none, none, none, none, none, none⟩, none, none, none,
          [Include.mk (some ⟨"comments", none, none, none, none, none, none⟩) none
            [Include.mk (some ⟨"likes", none, none, none, none, none, none⟩) (some "some") []]],
          none, none⟩, none⟩).2.dependencies.includes
      = [Include.mk (some ⟨"comments", none, none, none, none, none, none⟩) none
          [Include.mk (some ⟨"likes", none, none, none, none, none, none⟩) (some "some") []]]) ∧
    (Include.kind (Include.mk (some ⟨"comments", none, none, none, none, none, none⟩) none
        [Include.mk (some ⟨"likes", none, none, none, none, none, none⟩) (some "some") []])
      = none) ∧
    (Include.mk (some ⟨"likes", none, none, none, none, none, none⟩) (some "some") [] ∉
      (addQueryStep ⟨some (fun _ => "sid"), "", [], false⟩ ⟨none, []⟩
        ⟨⟨some ⟨"posts", none, none, none, none, none, none⟩, none, none, none,
          [Include.mk (some ⟨"comments", none, none, none, none, none, none⟩) none
            [Include.mk (some ⟨"likes", none, none, none, none, none, none⟩) (some "some") []]],
          none, none⟩, none⟩).2.dependencies.includes) := by
  refine ⟨rfl, rfl, ?_⟩
  intro hmem
  rw [show (addQueryStep ⟨some (fun _ => "sid"), "", [], false⟩ ⟨none, []⟩
        ⟨⟨some ⟨"posts", none, none, none, none, none, none⟩, none, none, none,
          [Include.mk (some ⟨"comments", none, none, none, none, none, none⟩) none
            [Include.mk (some ⟨"likes", none, none, none, none, none, none⟩) (some "some") []]],
          none, none⟩, none⟩).2.dependencies.includes
      = [Include.mk (some ⟨"comments", none, none, none, none, none, none⟩) none
          [Include.mk (some ⟨"likes", none, none, none, none, none, none⟩) (some "some") []]]
    from rfl] at hmem
  rw [List.mem_singleton] at hmem
  have hkind := congrArg Include.kind hmem
  simp [Include.kind] at hkind

/-- Deleting the diagnostic keys removes the trailing diagnostic fields
and leaves the rest of the marshalled shape untouched. -/
theorem removeDiag (base : List (String × Json)) (o a : Option Json) :
    removeKey "adapterVersion" (removeKey "orm"
      (base ++ optField "orm" o ++ optField "adapterVersion" a)) =
    removeKey "adapterVersion" (removeKey "orm" base) := by
  cases o <;> cases a <;>
    simp [removeKey, optField, List.filter_append]

/-- C2: two QueryShapes that differ only in the diagnostic fields (the
client/adapter version tags `ORM` and `AdapterVersion`) canonicalize to
byte-identical output, and the fingerprints derived from those canonical
strings are equal. -/
theorem c2_diagnostic_invariance (S : QueryShape) (o a : Option String) :
    CanonicalizeQueryShape { S with orm := o, adapterVersion := a } = CanonicalizeQueryShape S ∧
    ComputeQueryShapeID { S with orm := o, adapterVersion := a } = ComputeQueryShapeID S := by
  have hfields : removeKey "adapterVersion" (removeKey "orm"
      (queryShapeFields { S with orm := o, adapterVersion := a })) =
      removeKey "adapterVersion" (removeKey "orm" (queryShapeFields S)) := by
    rw [queryShapeFields, queryShapeFields]
    rw [removeDiag, removeDiag]
  have hcanon : CanonicalizeQueryShape { S with orm := o, adapterVersion := a } =
      CanonicalizeQueryShape S := by
    rw [CanonicalizeQueryShape, CanonicalizeQueryShape, hfields]
  exact ⟨hcanon, by rw [ComputeQueryShapeID, ComputeQueryShapeID, hcanon]⟩

end IncludeKit
